import Mathlib

/-!
# Verification of the caza.la flocking-simulation core

Shallow embedding of the repository's simulation core:
`src/src/lib/Vector.ts`, `src/src/lib/Fish.ts`, `src/src/lib/constants.ts`,
the `SpatialGrid` (`src/unnamed/part_013`), `categorizeFishByMass`
(`src/unnamed/part_009`), and the `Simulation` population / adaptive-quality
logic (`src/unnamed/part_011`, `src/src/lib/utils/constants.ts`).

JavaScript numbers are modelled as exact real numbers (`ℝ`).  Mutating
methods of the source (which return `this` for chaining) are modelled as
pure functions returning the updated value.  `Math.sqrt` is `Real.sqrt`,
`Math.atan2(y, x)` is `Complex.arg ⟨x, y⟩` (the same two-argument
arctangent, with `atan2 0 0 = 0`), and `Math.cos`/`Math.sin` are
`Real.cos`/`Real.sin`.  Logging calls are ignored: they do not affect any
value.
-/

namespace Caza

/-- `Vector` from `src/src/lib/Vector.ts`: a 2D vector with `x` and `y`
components (JS numbers, modelled as `ℝ`). -/
structure Vector where
  x : ℝ
  y : ℝ

namespace Vector

/-- `Vector.add` (mutating `this.x += v.x; this.y += v.y`). -/
def add (a v : Vector) : Vector := ⟨a.x + v.x, a.y + v.y⟩

/-- `Vector.plus` (pure variant of `add`). -/
def plus (a v : Vector) : Vector := ⟨a.x + v.x, a.y + v.y⟩

/-- `Vector.sub` (mutating `this.x -= v.x; this.y -= v.y`). -/
def sub (a v : Vector) : Vector := ⟨a.x - v.x, a.y - v.y⟩

/-- `Vector.minus` (pure variant of `sub`). -/
def minus (a v : Vector) : Vector := ⟨a.x - v.x, a.y - v.y⟩

/-- `Vector.mul` (mutating multiplication by a scalar). -/
def mul (a : Vector) (s : ℝ) : Vector := ⟨a.x * s, a.y * s⟩

/-- `Vector.times` (pure variant of `mul`). -/
def times (a : Vector) (s : ℝ) : Vector := ⟨a.x * s, a.y * s⟩

/-- `Vector.div`: `if (!s) { logger.warn(...); return this; } this.x /= s; this.y /= s`.
Division by zero leaves the vector unchanged (the log call carries no value). -/
noncomputable def div (a : Vector) (s : ℝ) : Vector :=
  if s = 0 then a else ⟨a.x / s, a.y / s⟩

/-- `Vector.dividedBy`: `if (s === 0) { ...; throw new Error(...) } return new Vector(x/s, y/s)`.
The thrown error is modelled with `Except.error`. -/
noncomputable def dividedBy (a : Vector) (s : ℝ) : Except String Vector :=
  if s = 0 then Except.error "Division by zero error in Vector.dividedBy"
  else Except.ok ⟨a.x / s, a.y / s⟩

/-- `Vector.safeDivide`: on a zero scalar both components are set to
`defaultValue` (which defaults to `0` at the call site); otherwise both are
divided by `s`. -/
noncomputable def safeDivide (a : Vector) (s defaultValue : ℝ) : Vector :=
  if s = 0 then ⟨defaultValue, defaultValue⟩ else ⟨a.x / s, a.y / s⟩

/-- `Vector.mag`: `Math.sqrt(x*x + y*y)`. -/
noncomputable def mag (a : Vector) : ℝ := Real.sqrt (a.x * a.x + a.y * a.y)

/-- `Vector.magSq`: `x*x + y*y`. -/
def magSq (a : Vector) : ℝ := a.x * a.x + a.y * a.y

/-- `Vector.normalize`: divide by the magnitude when it is positive. -/
noncomputable def normalize (a : Vector) : Vector :=
  if a.mag > 0 then a.div a.mag else a

/-- `Vector.angle`: `Math.atan2(y, x)`, i.e. the argument of the complex
number `x + y·i` (with `arg 0 = 0`, exactly as `Math.atan2(0, 0) = 0`). -/
noncomputable def angle (a : Vector) : ℝ := Complex.arg ⟨a.x, a.y⟩

/-- `Vector.setMag`: `(m * cos(angle), m * sin(angle))`. -/
noncomputable def setMag (a : Vector) (m : ℝ) : Vector :=
  ⟨m * Real.cos a.angle, m * Real.sin a.angle⟩

/-- `Vector.withMag` (pure variant; same formula as `setMag`). -/
noncomputable def withMag (a : Vector) (m : ℝ) : Vector :=
  ⟨m * Real.cos a.angle, m * Real.sin a.angle⟩

/-- `Vector.copy`. -/
def copy (a : Vector) : Vector := ⟨a.x, a.y⟩

/-- `Vector.limit`: clamp the magnitude to `l` (no-op when `mag ≤ l`). -/
noncomputable def limit (a : Vector) (l : ℝ) : Vector :=
  if a.mag > l then a.setMag l else a

/-- `Vector.limited` (pure variant: `withMag l` when over the bound,
otherwise `copy`). -/
noncomputable def limited (a : Vector) (l : ℝ) : Vector :=
  if a.mag > l then a.withMag l else a.copy

/-- `Vector.dist`: Euclidean distance `Math.sqrt(dx*dx + dy*dy)`. -/
noncomputable def dist (a v : Vector) : ℝ :=
  Real.sqrt ((a.x - v.x) * (a.x - v.x) + (a.y - v.y) * (a.y - v.y))

/-- `Vector.distSq`. -/
def distSq (a v : Vector) : ℝ :=
  (a.x - v.x) * (a.x - v.x) + (a.y - v.y) * (a.y - v.y)

/-- `Vector.angleBetween`: `this.angle() - v.angle()`. -/
noncomputable def angleBetween (a v : Vector) : ℝ := a.angle - v.angle

theorem ext_xy {a b : Vector} (hx : a.x = b.x) (hy : a.y = b.y) : a = b := by
  cases a; cases b; simp_all

noncomputable instance : DecidableEq Vector := fun a b =>
  decidable_of_iff (a.x = b.x ∧ a.y = b.y) (by cases a; cases b; simp)

theorem mag_nonneg (a : Vector) : 0 ≤ a.mag := Real.sqrt_nonneg _

theorem mag_zero : (⟨0, 0⟩ : Vector).mag = 0 := by
  simp [mag]

/-- The magnitude of `setMag a m` is `|m|` (exact trigonometry:
`(m·cos θ)² + (m·sin θ)² = m²`). -/
theorem mag_setMag (a : Vector) (m : ℝ) : (a.setMag m).mag = |m| := by
  unfold setMag mag
  have h : m * Real.cos a.angle * (m * Real.cos a.angle) +
      m * Real.sin a.angle * (m * Real.sin a.angle) =
      m ^ 2 * (Real.sin a.angle ^ 2 + Real.cos a.angle ^ 2) := by ring
  rw [h, Real.sin_sq_add_cos_sq, mul_one, Real.sqrt_sq_eq_abs]

/-- The complex number `x + y·i` used by `angle` has absolute value `mag`. -/
theorem abs_complex (a : Vector) : Complex.abs ⟨a.x, a.y⟩ = a.mag := by
  rw [Complex.abs_apply, Complex.normSq_apply, mag]

theorem complex_ne_zero {a : Vector} (h : 0 < a.mag) : (⟨a.x, a.y⟩ : ℂ) ≠ 0 := by
  intro hz
  simp only [Complex.ext_iff, Complex.zero_re, Complex.zero_im] at hz
  obtain ⟨hx, hy⟩ := hz
  rw [mag, hx, hy] at h
  simp at h

/-- On a vector of positive magnitude, `setMag m` rescales the vector by
`m / mag` (since `cos (atan2 y x) = x / mag` and `sin (atan2 y x) = y / mag`). -/
theorem setMag_of_pos {a : Vector} (h : 0 < a.mag) (m : ℝ) :
    a.setMag m = a.mul (m / a.mag) := by
  have hz : (⟨a.x, a.y⟩ : ℂ) ≠ 0 := complex_ne_zero h
  have hcos : Real.cos a.angle = a.x / a.mag := by
    rw [angle, Complex.cos_arg hz]
    simp only [abs_complex]
  have hsin : Real.sin a.angle = a.y / a.mag := by
    rw [angle, Complex.sin_arg]
    simp only [abs_complex]
  unfold setMag mul
  rw [hcos, hsin]
  exact ext_xy (by ring) (by ring)

theorem limit_of_le {a : Vector} {l : ℝ} (h : a.mag ≤ l) : a.limit l = a := by
  rw [limit, if_neg (not_lt.mpr h)]

theorem limit_of_gt {a : Vector} {l : ℝ} (h : l < a.mag) : a.limit l = a.setMag l := by
  rw [limit, if_pos h]

theorem mag_limit_le {a : Vector} {l : ℝ} (hl : 0 ≤ l) : (a.limit l).mag ≤ l := by
  rcases lt_or_le l a.mag with h | h
  · rw [limit_of_gt h, mag_setMag, abs_of_nonneg hl]
  · rw [limit_of_le h]; exact h

theorem limited_eq_limit (a : Vector) (l : ℝ) : a.limited l = a.limit l := by
  unfold limited limit withMag setMag copy
  rcases lt_or_le l a.mag with h | h
  all_goals rfl

theorem mul_zero_vec (s : ℝ) : (⟨0, 0⟩ : Vector).mul s = ⟨0, 0⟩ := by
  simp [mul]

theorem add_zero_vec (a : Vector) : a.add ⟨0, 0⟩ = a := by
  cases a; simp [add]

end Vector

/-! ## Constants (`src/src/lib/constants.ts` and `src/src/lib/utils/constants.ts`) -/

namespace FISH

def LOOK_RANGE_MULTIPLIER : ℝ := 200
def SEPARATION_RANGE_MULTIPLIER : ℝ := 30
def MAX_SPEED_MULTIPLIER : ℝ := 12
def MAX_FORCE_DIVISOR : ℝ := 0.1
def SEPARATION_WEIGHT : ℝ := 1.4
def ALIGNMENT_WEIGHT : ℝ := 1.2
def COHESION_WEIGHT : ℝ := 1.0
def MASS_THRESHOLD_BIGGER : ℝ := 2
def MASS_THRESHOLD_SMALLER : ℝ := 0.5
def MIN_VELOCITY_MAG : ℝ := 2
def DEFAULT_VELOCITY_MAG : ℝ := 5

end FISH

namespace SIMULATION

def BOUNDARY_FORCE_MULTIPLIER : ℝ := 3
def BOUNDARY_DISTANCE : ℝ := 50
def SPATIAL_CELL_SIZE : ℝ := 100
def MIN_FISH : ℝ := 30
def MAX_FISH : ℝ := 200
def BASE_FISH_COUNT : ℝ := 50
def REFERENCE_WIDTH : ℝ := 600

end SIMULATION

/-! ## `Fish` (`src/src/lib/Fish.ts`)

The source constructor stores `maxspeed`, `maxforce`, `separationRange`,
`lookRange` as fields computed from `mass`, and `mass` is never mutated
afterwards; they are modelled as derived functions of `mass`.  Rendering-only
state (`color`, `avoidList`, ...) carries no simulation value and is omitted. -/

structure Fish where
  ID : ℕ
  mass : ℝ
  location : Vector
  velocity : Vector
  acceleration : Vector
  wandering : Vector
  detailLevel : ℕ

noncomputable instance : DecidableEq Fish := fun a b =>
  decidable_of_iff
    (a.ID = b.ID ∧ a.mass = b.mass ∧ a.location = b.location ∧
      a.velocity = b.velocity ∧ a.acceleration = b.acceleration ∧
      a.wandering = b.wandering ∧ a.detailLevel = b.detailLevel)
    (by cases a; cases b; simp)

/-- `World` from `src/src/lib/Fish.ts`. -/
structure World where
  width : ℝ
  height : ℝ
  creatures : List Fish

namespace Fish

/-- `this.maxspeed = FISH.MAX_SPEED_MULTIPLIER * this.mass`. -/
def maxspeed (f : Fish) : ℝ := FISH.MAX_SPEED_MULTIPLIER * f.mass

/-- `this.maxforce = FISH.MAX_FORCE_DIVISOR / this.mass`. -/
noncomputable def maxforce (f : Fish) : ℝ := FISH.MAX_FORCE_DIVISOR / f.mass

/-- `this.separationRange = this.mass * FISH.SEPARATION_RANGE_MULTIPLIER`. -/
def separationRange (f : Fish) : ℝ := f.mass * FISH.SEPARATION_RANGE_MULTIPLIER

/-- `this.lookRange = this.mass * FISH.LOOK_RANGE_MULTIPLIER`. -/
def lookRange (f : Fish) : ℝ := f.mass * FISH.LOOK_RANGE_MULTIPLIER

/-- `Fish.update`: integrate acceleration into velocity, clamp speed to
`maxspeed`, reset too-slow velocities to `DEFAULT_VELOCITY_MAG`, move, and
zero the force accumulator. -/
noncomputable def update (f : Fish) : Fish :=
  let v1 := f.velocity.add f.acceleration
  let v2 := v1.limit f.maxspeed
  let v3 := if v2.mag < FISH.MIN_VELOCITY_MAG then v2.setMag FISH.DEFAULT_VELOCITY_MAG else v2
  { f with
    velocity := v3
    location := f.location.add v3
    acceleration := f.acceleration.mul 0 }

/-- `Fish.applyForce`: `acceleration.add(f)`. -/
def applyForce (f : Fish) (force : Vector) : Fish :=
  { f with acceleration := f.acceleration.add force }

/-- `Fish.boundaries`: four independent edge checks against the unchanged
`this.location`, each adding a constant force of magnitude
`maxforce * BOUNDARY_FORCE_MULTIPLIER` pointing inward (`applyForce` never
changes `location` or `mass`, so testing the original `f.location` and
`f.maxforce` is exact). -/
noncomputable def boundaries (f : Fish) (world : World) : Fish :=
  let f1 := if f.location.x < SIMULATION.BOUNDARY_DISTANCE
    then f.applyForce ⟨f.maxforce * SIMULATION.BOUNDARY_FORCE_MULTIPLIER, 0⟩ else f
  let f2 := if f.location.x > world.width - SIMULATION.BOUNDARY_DISTANCE
    then f1.applyForce ⟨-(f.maxforce * SIMULATION.BOUNDARY_FORCE_MULTIPLIER), 0⟩ else f1
  let f3 := if f.location.y < SIMULATION.BOUNDARY_DISTANCE
    then f2.applyForce ⟨0, f.maxforce * SIMULATION.BOUNDARY_FORCE_MULTIPLIER⟩ else f2
  if f.location.y > world.height - SIMULATION.BOUNDARY_DISTANCE
    then f3.applyForce ⟨0, -(f.maxforce * SIMULATION.BOUNDARY_FORCE_MULTIPLIER)⟩ else f3

/-- `Fish.seek`. -/
noncomputable def seek (f : Fish) (target : Vector) : Vector :=
  ((((target.copy.sub f.location).normalize).mul f.maxspeed).sub f.velocity).limit f.maxforce

/-- `Fish.separate`: inverse-distance-weighted repulsion from neighbors
closer than `range`, normalised and steered, guarded by
`if (neighbors.length)`. -/
noncomputable def separate (f : Fish) (neighbors : List Fish) (range : ℝ) : Vector :=
  if neighbors.length ≠ 0 then
    let sum := neighbors.foldl (fun (sum : Vector) (neighbor : Fish) =>
      let d := f.location.dist neighbor.location
      if d < range then
        sum.add (((f.location.copy.sub neighbor.location).normalize).div d)
      else sum) (⟨0, 0⟩ : Vector)
    ((((sum.div (neighbors.length : ℝ)).normalize).mul f.maxspeed).sub f.velocity).limit
      f.maxforce
  else ⟨0, 0⟩

/-- `Fish.align` (note: the final clamp is `limit(this.maxspeed)` in the
source, not `maxforce`). -/
noncomputable def align (f : Fish) (neighbors : List Fish) : Vector :=
  if neighbors.length ≠ 0 then
    let sum := neighbors.foldl
      (fun (sum : Vector) (neighbor : Fish) => sum.add neighbor.velocity) (⟨0, 0⟩ : Vector)
    let steered := ((sum.div (neighbors.length : ℝ)).normalize).mul f.maxspeed
    (steered.sub f.velocity).limit f.maxspeed
  else ⟨0, 0⟩

/-- `Fish.cohesion`: seek the centroid of neighbor locations. -/
noncomputable def cohesion (f : Fish) (neighbors : List Fish) : Vector :=
  if neighbors.length ≠ 0 then
    let sum := neighbors.foldl
      (fun (sum : Vector) (neighbor : Fish) => sum.add neighbor.location) (⟨0, 0⟩ : Vector)
    f.seek (sum.div (neighbors.length : ℝ))
  else ⟨0, 0⟩

/-- `Fish.shoal`: weighted sum of the three boids forces, each clamped to
`maxforce`, accumulated through `applyForce`. -/
noncomputable def shoal (f : Fish) (neighbors : List Fish) : Fish :=
  let sep := ((f.separate neighbors f.separationRange).limit f.maxforce).mul FISH.SEPARATION_WEIGHT
  let ali := ((f.align neighbors).limit f.maxforce).mul FISH.ALIGNMENT_WEIGHT
  let cohe := ((f.cohesion neighbors).limit f.maxforce).mul FISH.COHESION_WEIGHT
  ((f.applyForce sep).applyForce ali).applyForce cohe

end Fish

/-- `categorizeFishByMass` (`src/unnamed/part_009`): the source loop pushes
each neighbor, in input order, into `bigger` (`mass > fish.mass * biggerThreshold`),
else `smaller` (`mass < fish.mass * smallerThreshold`), else `similar`. -/
noncomputable def categorizeFishByMass (fish : Fish) (neighbors : List Fish)
    (biggerThreshold smallerThreshold : ℝ) : List Fish × List Fish × List Fish :=
  match neighbors with
  | [] => ([], [], [])
  | neighbor :: rest =>
    let r := categorizeFishByMass fish rest biggerThreshold smallerThreshold
    if neighbor.mass > fish.mass * biggerThreshold then (neighbor :: r.1, r.2.1, r.2.2)
    else if neighbor.mass < fish.mass * smallerThreshold then (r.1, r.2.1, neighbor :: r.2.2)
    else (r.1, neighbor :: r.2.1, r.2.2)

/-! ## Concrete fixtures used by counterexamples and witnesses -/

/-- A fish of mass `1/4`: its `maxspeed` is `3`, strictly below
`DEFAULT_VELOCITY_MAG = 5`, at rest with no accumulated force. -/
noncomputable def lowMassFish : Fish :=
  ⟨0, 1/4, ⟨0, 0⟩, ⟨0, 0⟩, ⟨0, 0⟩, ⟨0.2, 0.2⟩, 3⟩

/-- A fish of mass `1` at rest. -/
noncomputable def unitFish : Fish :=
  ⟨1, 1, ⟨100, 100⟩, ⟨1, 1⟩, ⟨0, 0⟩, ⟨0.2, 0.2⟩, 3⟩

/-- The velocity produced by one `Fish.update` step, written without `let`s. -/
theorem Fish.update_velocity (f : Fish) :
    f.update.velocity =
      (if ((f.velocity.add f.acceleration).limit f.maxspeed).mag < FISH.MIN_VELOCITY_MAG
       then ((f.velocity.add f.acceleration).limit f.maxspeed).setMag FISH.DEFAULT_VELOCITY_MAG
       else (f.velocity.add f.acceleration).limit f.maxspeed) := rfl

/-! ## Claim theorems: Vector contracts (C5, C7, C10) -/

/-- Claim C5: the mutating `div` is a no-op on divisor `0`, the strict
`dividedBy` fails with a division-by-zero error, `safeDivide` substitutes the
caller-supplied default, and all three divide both components for a nonzero
divisor. -/
theorem vector_division_by_zero_contract (v : Vector) (s d : ℝ) (hs : s ≠ 0) :
    v.div 0 = v ∧
    v.dividedBy 0 = Except.error "Division by zero error in Vector.dividedBy" ∧
    v.safeDivide 0 d = ⟨d, d⟩ ∧
    v.div s = ⟨v.x / s, v.y / s⟩ ∧
    v.dividedBy s = Except.ok ⟨v.x / s, v.y / s⟩ ∧
    v.safeDivide s d = ⟨v.x / s, v.y / s⟩ := by
  unfold Vector.div Vector.dividedBy Vector.safeDivide
  exact ⟨if_pos rfl, if_pos rfl, if_pos rfl, if_neg hs, if_neg hs, if_neg hs⟩

theorem vector_division_by_zero_contract_witness :
    (2:ℝ) ≠ 0 ∧
    ((⟨1, 2⟩ : Vector).div 0 = ⟨1, 2⟩ ∧
     (⟨1, 2⟩ : Vector).dividedBy 0 =
       Except.error "Division by zero error in Vector.dividedBy" ∧
     (⟨1, 2⟩ : Vector).safeDivide 0 7 = ⟨7, 7⟩ ∧
     (⟨1, 2⟩ : Vector).div 2 = ⟨1 / 2, 2 / 2⟩ ∧
     (⟨1, 2⟩ : Vector).dividedBy 2 = Except.ok ⟨1 / 2, 2 / 2⟩ ∧
     (⟨1, 2⟩ : Vector).safeDivide 2 7 = ⟨1 / 2, 2 / 2⟩) :=
  ⟨by norm_num, vector_division_by_zero_contract ⟨1, 2⟩ 2 7 (by norm_num)⟩

/-- Claim C7: `limit`/`limited` clamp the magnitude to `l`, scaling a
too-long vector onto the radius-`l` circle along its own direction and
leaving any vector of magnitude at most `l` unchanged. -/
theorem vector_limit_spec (v : Vector) (l : ℝ) (hl : 0 < l) :
    (v.limit l).mag ≤ l ∧ (v.limited l).mag ≤ l ∧
    (l < v.mag → (v.limit l).mag = l ∧ v.limit l = v.mul (l / v.mag)) ∧
    (l < v.mag → (v.limited l).mag = l ∧ v.limited l = v.mul (l / v.mag)) ∧
    (v.mag ≤ l → v.limit l = v ∧ v.limited l = v) := by
  have key : ∀ h : l < v.mag, (v.limit l).mag = l ∧ v.limit l = v.mul (l / v.mag) := by
    intro h
    have hvm : 0 < v.mag := lt_trans hl h
    rw [Vector.limit_of_gt h, Vector.mag_setMag, abs_of_pos hl]
    exact ⟨rfl, Vector.setMag_of_pos hvm l⟩
  refine ⟨Vector.mag_limit_le (le_of_lt hl), ?_, key, ?_, ?_⟩
  · rw [Vector.limited_eq_limit]; exact Vector.mag_limit_le (le_of_lt hl)
  · intro h; rw [Vector.limited_eq_limit]; exact key h
  · intro h
    rw [Vector.limited_eq_limit, Vector.limit_of_le h]
    exact ⟨rfl, rfl⟩

theorem vector_limit_spec_witness :
    (0:ℝ) < 1 ∧
    (((⟨3, 4⟩ : Vector).limit 1).mag ≤ 1 ∧ ((⟨3, 4⟩ : Vector).limited 1).mag ≤ 1 ∧
     (1 < (⟨3, 4⟩ : Vector).mag → ((⟨3, 4⟩ : Vector).limit 1).mag = 1 ∧
       (⟨3, 4⟩ : Vector).limit 1 = (⟨3, 4⟩ : Vector).mul (1 / (⟨3, 4⟩ : Vector).mag)) ∧
     (1 < (⟨3, 4⟩ : Vector).mag → ((⟨3, 4⟩ : Vector).limited 1).mag = 1 ∧
       (⟨3, 4⟩ : Vector).limited 1 = (⟨3, 4⟩ : Vector).mul (1 / (⟨3, 4⟩ : Vector).mag)) ∧
     ((⟨3, 4⟩ : Vector).mag ≤ 1 → (⟨3, 4⟩ : Vector).limit 1 = ⟨3, 4⟩ ∧
       (⟨3, 4⟩ : Vector).limited 1 = ⟨3, 4⟩)) :=
  ⟨by norm_num, vector_limit_spec ⟨3, 4⟩ 1 (by norm_num)⟩

/-- Claim C10: `safeDivide` by zero overwrites both components with the
default value, discarding the vector's direction; with the implicit default
`0` the result is the zero vector. -/
theorem safeDivide_zero_sets_default (v : Vector) (d : ℝ) :
    v.safeDivide 0 d = ⟨d, d⟩ ∧ v.safeDivide 0 0 = ⟨0, 0⟩ := by
  unfold Vector.safeDivide
  exact ⟨if_pos rfl, if_pos rfl⟩

/-! ## Claim theorems: Fish.update (C2) -/

/-- Counterexample to claim C2 as stated for arbitrary positive mass: a fish
of mass `1/4` has `maxspeed = 3 < DEFAULT_VELOCITY_MAG = 5`; starting at
rest, the anti-stall reset leaves it at speed `5`, above `maxspeed`. -/
theorem fish_update_velocity_cex :
    lowMassFish.update.velocity.mag = 5 ∧
    lowMassFish.maxspeed = 3 ∧
    ¬ lowMassFish.update.velocity.mag ≤ lowMassFish.maxspeed := by
  have hms : lowMassFish.maxspeed = 3 := by
    norm_num [lowMassFish, Fish.maxspeed, FISH.MAX_SPEED_MULTIPLIER]
  have h0 : lowMassFish.velocity.add lowMassFish.acceleration = (⟨0, 0⟩ : Vector) := by
    norm_num [lowMassFish, Vector.add]
  have h2 : (lowMassFish.velocity.add lowMassFish.acceleration).limit lowMassFish.maxspeed
      = (⟨0, 0⟩ : Vector) := by
    rw [h0]
    exact Vector.limit_of_le (by rw [Vector.mag_zero, hms]; norm_num)
  have hvel : lowMassFish.update.velocity.mag = 5 := by
    rw [Fish.update_velocity, h2, if_pos]
    · rw [Vector.mag_setMag]
      norm_num [FISH.DEFAULT_VELOCITY_MAG]
    · rw [Vector.mag_zero]
      norm_num [FISH.MIN_VELOCITY_MAG]
  refine ⟨hvel, hms, ?_⟩
  rw [hvel, hms]
  norm_num

/-- Claim C2 (amended): whenever `DEFAULT_VELOCITY_MAG ≤ maxspeed` (true for
every mass at least `5/12`, hence for all masses the simulation creates),
one `Fish.update` leaves the speed in `[MIN_VELOCITY_MAG, maxspeed]`. -/
theorem fish_update_velocity_bounds (f : Fish)
    (h : FISH.DEFAULT_VELOCITY_MAG ≤ f.maxspeed) :
    FISH.MIN_VELOCITY_MAG ≤ f.update.velocity.mag ∧
    f.update.velocity.mag ≤ f.maxspeed := by
  have hms : (0:ℝ) ≤ f.maxspeed :=
    le_trans (by norm_num [FISH.DEFAULT_VELOCITY_MAG]) h
  rw [Fish.update_velocity]
  rcases lt_or_le ((f.velocity.add f.acceleration).limit f.maxspeed).mag
      FISH.MIN_VELOCITY_MAG with hlt | hge
  · rw [if_pos hlt, Vector.mag_setMag,
      abs_of_nonneg (by norm_num [FISH.DEFAULT_VELOCITY_MAG])]
    exact ⟨by norm_num [FISH.MIN_VELOCITY_MAG, FISH.DEFAULT_VELOCITY_MAG], h⟩
  · rw [if_neg (not_lt.mpr hge)]
    exact ⟨hge, Vector.mag_limit_le hms⟩

theorem fish_update_velocity_bounds_witness :
    FISH.DEFAULT_VELOCITY_MAG ≤ unitFish.maxspeed ∧
    (FISH.MIN_VELOCITY_MAG ≤ unitFish.update.velocity.mag ∧
      unitFish.update.velocity.mag ≤ unitFish.maxspeed) :=
  ⟨by norm_num [FISH.DEFAULT_VELOCITY_MAG, unitFish, Fish.maxspeed,
      FISH.MAX_SPEED_MULTIPLIER],
   fish_update_velocity_bounds unitFish
     (by norm_num [FISH.DEFAULT_VELOCITY_MAG, unitFish, Fish.maxspeed,
       FISH.MAX_SPEED_MULTIPLIER])⟩

/-! ## Claim theorems: boundaries (C3) -/

/-- A mass-1 fish 10 px from the left edge (40 px past the threshold). -/
noncomputable def edgeFishDeep : Fish :=
  ⟨2, 1, ⟨10, 300⟩, ⟨0, 0⟩, ⟨0, 0⟩, ⟨0.2, 0.2⟩, 3⟩

/-- A mass-1 fish 40 px from the left edge (10 px past the threshold). -/
noncomputable def edgeFishShallow : Fish :=
  ⟨3, 1, ⟨40, 300⟩, ⟨0, 0⟩, ⟨0, 0⟩, ⟨0.2, 0.2⟩, 3⟩

/-- An 800×600 world. -/
def world800 : World := ⟨800, 600, []⟩

/-- When only the left-edge test fires, `boundaries` reduces to a single
`applyForce` of the constant inward force. -/
theorem Fish.boundaries_left {f : Fish} {w : World}
    (h1 : f.location.x < SIMULATION.BOUNDARY_DISTANCE)
    (h2 : ¬ f.location.x > w.width - SIMULATION.BOUNDARY_DISTANCE)
    (h3 : ¬ f.location.y < SIMULATION.BOUNDARY_DISTANCE)
    (h4 : ¬ f.location.y > w.height - SIMULATION.BOUNDARY_DISTANCE) :
    f.boundaries w =
      f.applyForce ⟨f.maxforce * SIMULATION.BOUNDARY_FORCE_MULTIPLIER, 0⟩ := by
  rw [Fish.boundaries]
  simp only [if_pos h1, if_neg h2, if_neg h3, if_neg h4]

/-- When every edge test fails, `boundaries` is the identity. -/
theorem Fish.boundaries_far {f : Fish} {w : World}
    (h1 : ¬ f.location.x < SIMULATION.BOUNDARY_DISTANCE)
    (h2 : ¬ f.location.x > w.width - SIMULATION.BOUNDARY_DISTANCE)
    (h3 : ¬ f.location.y < SIMULATION.BOUNDARY_DISTANCE)
    (h4 : ¬ f.location.y > w.height - SIMULATION.BOUNDARY_DISTANCE) :
    f.boundaries w = f := by
  rw [Fish.boundaries]
  simp only [if_neg h1, if_neg h2, if_neg h3, if_neg h4]

/-- Counterexample to claim C3 as stated: the boundary force is NOT scaled by
how far past the threshold the agent has drifted.  Two mass-1 fish, 40 px and
10 px past the left-edge threshold, receive exactly the same acceleration
`(maxforce * 3, 0) = (0.3, 0)` — no distance-dependent factor exists. -/
theorem fish_boundaries_cex :
    (edgeFishDeep.boundaries world800).acceleration =
      (edgeFishShallow.boundaries world800).acceleration ∧
    (edgeFishDeep.boundaries world800).acceleration =
      ⟨edgeFishDeep.maxforce * 3, 0⟩ ∧
    edgeFishDeep.location.x ≠ edgeFishShallow.location.x := by
  have hd : edgeFishDeep.boundaries world800 =
      edgeFishDeep.applyForce
        ⟨edgeFishDeep.maxforce * SIMULATION.BOUNDARY_FORCE_MULTIPLIER, 0⟩ :=
    Fish.boundaries_left
      (by norm_num [edgeFishDeep, SIMULATION.BOUNDARY_DISTANCE])
      (by norm_num [edgeFishDeep, world800, SIMULATION.BOUNDARY_DISTANCE])
      (by norm_num [edgeFishDeep, SIMULATION.BOUNDARY_DISTANCE])
      (by norm_num [edgeFishDeep, world800, SIMULATION.BOUNDARY_DISTANCE])
  have hs : edgeFishShallow.boundaries world800 =
      edgeFishShallow.applyForce
        ⟨edgeFishShallow.maxforce * SIMULATION.BOUNDARY_FORCE_MULTIPLIER, 0⟩ :=
    Fish.boundaries_left
      (by norm_num [edgeFishShallow, SIMULATION.BOUNDARY_DISTANCE])
      (by norm_num [edgeFishShallow, world800, SIMULATION.BOUNDARY_DISTANCE])
      (by norm_num [edgeFishShallow, SIMULATION.BOUNDARY_DISTANCE])
      (by norm_num [edgeFishShallow, world800, SIMULATION.BOUNDARY_DISTANCE])
  refine ⟨?_, ?_, ?_⟩
  · rw [hd, hs]
    norm_num [Fish.applyForce, Vector.add, edgeFishDeep, edgeFishShallow,
      Fish.maxforce, FISH.MAX_FORCE_DIVISOR, SIMULATION.BOUNDARY_FORCE_MULTIPLIER]
  · rw [hd]
    norm_num [Fish.applyForce, Vector.add, edgeFishDeep,
      Fish.maxforce, FISH.MAX_FORCE_DIVISOR, SIMULATION.BOUNDARY_FORCE_MULTIPLIER]
  · norm_num [edgeFishDeep, edgeFishShallow]

/-- Claim C3 (amended): within `BOUNDARY_DISTANCE` of the left edge (and away
from the other edges) `boundaries` adds the constant inward force
`(maxforce * BOUNDARY_FORCE_MULTIPLIER, 0)` — strictly positive x-component,
magnitude exactly `maxforce * 3`, independent of drift depth; a fish at least
`BOUNDARY_DISTANCE` from every edge receives zero force. -/
theorem fish_boundaries_spec (f : Fish) (w : World) (hm : 0 < f.mass) :
    (f.location.x < SIMULATION.BOUNDARY_DISTANCE →
      ¬ f.location.x > w.width - SIMULATION.BOUNDARY_DISTANCE →
      ¬ f.location.y < SIMULATION.BOUNDARY_DISTANCE →
      ¬ f.location.y > w.height - SIMULATION.BOUNDARY_DISTANCE →
      (f.boundaries w).acceleration =
        f.acceleration.add ⟨f.maxforce * SIMULATION.BOUNDARY_FORCE_MULTIPLIER, 0⟩ ∧
      (f.boundaries w).acceleration.x =
        f.acceleration.x + f.maxforce * SIMULATION.BOUNDARY_FORCE_MULTIPLIER ∧
      0 < f.maxforce * SIMULATION.BOUNDARY_FORCE_MULTIPLIER) ∧
    (¬ f.location.x < SIMULATION.BOUNDARY_DISTANCE →
      ¬ f.location.x > w.width - SIMULATION.BOUNDARY_DISTANCE →
      ¬ f.location.y < SIMULATION.BOUNDARY_DISTANCE →
      ¬ f.location.y > w.height - SIMULATION.BOUNDARY_DISTANCE →
      f.boundaries w = f) := by
  have hforce : 0 < f.maxforce * SIMULATION.BOUNDARY_FORCE_MULTIPLIER := by
    have : 0 < f.maxforce :=
      div_pos (by norm_num [FISH.MAX_FORCE_DIVISOR]) hm
    have h3 : (0:ℝ) < SIMULATION.BOUNDARY_FORCE_MULTIPLIER := by
      norm_num [SIMULATION.BOUNDARY_FORCE_MULTIPLIER]
    exact mul_pos this h3
  constructor
  · intro h1 h2 h3 h4
    rw [Fish.boundaries_left h1 h2 h3 h4]
    refine ⟨rfl, ?_, hforce⟩
    simp [Fish.applyForce, Vector.add]
  · intro h1 h2 h3 h4
    exact Fish.boundaries_far h1 h2 h3 h4

theorem fish_boundaries_spec_witness :
    (0:ℝ) < edgeFishDeep.mass ∧
    ((edgeFishDeep.location.x < SIMULATION.BOUNDARY_DISTANCE →
      ¬ edgeFishDeep.location.x > world800.width - SIMULATION.BOUNDARY_DISTANCE →
      ¬ edgeFishDeep.location.y < SIMULATION.BOUNDARY_DISTANCE →
      ¬ edgeFishDeep.location.y > world800.height - SIMULATION.BOUNDARY_DISTANCE →
      (edgeFishDeep.boundaries world800).acceleration =
        edgeFishDeep.acceleration.add
          ⟨edgeFishDeep.maxforce * SIMULATION.BOUNDARY_FORCE_MULTIPLIER, 0⟩ ∧
      (edgeFishDeep.boundaries world800).acceleration.x =
        edgeFishDeep.acceleration.x +
          edgeFishDeep.maxforce * SIMULATION.BOUNDARY_FORCE_MULTIPLIER ∧
      0 < edgeFishDeep.maxforce * SIMULATION.BOUNDARY_FORCE_MULTIPLIER) ∧
    (¬ edgeFishDeep.location.x < SIMULATION.BOUNDARY_DISTANCE →
      ¬ edgeFishDeep.location.x > world800.width - SIMULATION.BOUNDARY_DISTANCE →
      ¬ edgeFishDeep.location.y < SIMULATION.BOUNDARY_DISTANCE →
      ¬ edgeFishDeep.location.y > world800.height - SIMULATION.BOUNDARY_DISTANCE →
      edgeFishDeep.boundaries world800 = edgeFishDeep)) :=
  ⟨by norm_num [edgeFishDeep],
   fish_boundaries_spec edgeFishDeep world800 (by norm_num [edgeFishDeep])⟩

/-! ## Claim theorems: steering with no neighbors (C8) -/

/-- Claim C8: with an empty neighbor list every steering computation returns
the zero vector — the `if (neighbors.length)` guard short-circuits before any
division by the count — and `shoal` leaves the acceleration untouched. -/
theorem steering_empty_neighbors (f : Fish) (range : ℝ) (hm : 0 < f.mass) :
    f.separate [] range = ⟨0, 0⟩ ∧
    f.align [] = ⟨0, 0⟩ ∧
    f.cohesion [] = ⟨0, 0⟩ ∧
    (f.shoal []).acceleration = f.acceleration := by
  have hsep : ∀ r : ℝ, f.separate [] r = ⟨0, 0⟩ := by
    intro r; simp [Fish.separate]
  have hali : f.align [] = ⟨0, 0⟩ := by
    simp [Fish.align]
  have hcoh : f.cohesion [] = ⟨0, 0⟩ := by
    simp [Fish.cohesion]
  refine ⟨hsep range, hali, hcoh, ?_⟩
  have hforce : (0:ℝ) ≤ f.maxforce :=
    le_of_lt (div_pos (by norm_num [FISH.MAX_FORCE_DIVISOR]) hm)
  have hz : (⟨0, 0⟩ : Vector).limit f.maxforce = ⟨0, 0⟩ :=
    Vector.limit_of_le (by rw [Vector.mag_zero]; exact hforce)
  rw [Fish.shoal]
  simp only [hsep, hali, hcoh, hz, Vector.mul_zero_vec]
  simp [Fish.applyForce, Vector.add_zero_vec]

theorem steering_empty_neighbors_witness :
    (0:ℝ) < unitFish.mass ∧
    (unitFish.separate [] 30 = ⟨0, 0⟩ ∧
     unitFish.align [] = ⟨0, 0⟩ ∧
     unitFish.cohesion [] = ⟨0, 0⟩ ∧
     (unitFish.shoal []).acceleration = unitFish.acceleration) :=
  ⟨by norm_num [unitFish],
   steering_empty_neighbors unitFish 30 (by norm_num [unitFish])⟩

/-! ## Claim theorems: mass classification (C4) -/

theorem categorize_bigger (fish : Fish) (bt st : ℝ) (neighbors : List Fish) :
    (categorizeFishByMass fish neighbors bt st).1 =
      neighbors.filter fun n => decide (n.mass > fish.mass * bt) := by
  induction neighbors with
  | nil => rfl
  | cons n rest ih =>
    rw [categorizeFishByMass]
    by_cases h1 : n.mass > fish.mass * bt
    · rw [if_pos h1]
      simp [List.filter_cons, h1, ih]
    · rw [if_neg h1]
      by_cases h2 : n.mass < fish.mass * st
      · rw [if_pos h2]
        simp [List.filter_cons, h1, ih]
      · rw [if_neg h2]
        simp [List.filter_cons, h1, ih]

theorem categorize_smaller (fish : Fish) (bt st : ℝ) (neighbors : List Fish) :
    (categorizeFishByMass fish neighbors bt st).2.2 =
      neighbors.filter fun n =>
        decide (¬ n.mass > fish.mass * bt ∧ n.mass < fish.mass * st) := by
  induction neighbors with
  | nil => rfl
  | cons n rest ih =>
    rw [categorizeFishByMass]
    by_cases h1 : n.mass > fish.mass * bt
    · rw [if_pos h1]
      simp [List.filter_cons, h1, ih]
    · rw [if_neg h1]
      by_cases h2 : n.mass < fish.mass * st
      · rw [if_pos h2]
        have h1' : n.mass ≤ fish.mass * bt := not_lt.mp h1
        simp [List.filter_cons, h1', h2, ih]
      · rw [if_neg h2]
        simp [List.filter_cons, h1, h2, ih]

theorem categorize_similar (fish : Fish) (bt st : ℝ) (neighbors : List Fish) :
    (categorizeFishByMass fish neighbors bt st).2.1 =
      neighbors.filter fun n =>
        decide (¬ n.mass > fish.mass * bt ∧ ¬ n.mass < fish.mass * st) := by
  induction neighbors with
  | nil => rfl
  | cons n rest ih =>
    rw [categorizeFishByMass]
    by_cases h1 : n.mass > fish.mass * bt
    · rw [if_pos h1]
      simp [List.filter_cons, h1, ih]
    · rw [if_neg h1]
      by_cases h2 : n.mass < fish.mass * st
      · rw [if_pos h2]
        simp [List.filter_cons, h1, h2, ih]
      · rw [if_neg h2]
        have h1' : n.mass ≤ fish.mass * bt := not_lt.mp h1
        have h2' : fish.mass * st ≤ n.mass := not_lt.mp h2
        simp [List.filter_cons, h1', h2', ih]

theorem categorize_length (fish : Fish) (bt st : ℝ) (neighbors : List Fish) :
    (categorizeFishByMass fish neighbors bt st).1.length +
      (categorizeFishByMass fish neighbors bt st).2.1.length +
      (categorizeFishByMass fish neighbors bt st).2.2.length = neighbors.length := by
  induction neighbors with
  | nil => rfl
  | cons n rest ih =>
    rw [categorizeFishByMass]
    by_cases h1 : n.mass > fish.mass * bt
    · rw [if_pos h1]
      simp only [List.length_cons]
      omega
    · rw [if_neg h1]
      by_cases h2 : n.mass < fish.mass * st
      · rw [if_pos h2]
        simp only [List.length_cons]
        omega
      · rw [if_neg h2]
        simp only [List.length_cons]
        omega

/-- Claim C4: with the configured thresholds (`bigger` strictly above
`mass × 2`, `smaller` strictly below `mass × 0.5`), `categorizeFishByMass`
partitions any neighbor list into three pairwise-disjoint lists whose lengths
sum to the input length; `bigger` and `smaller` are exactly the strict-
threshold filters, and a neighbor of mass exactly `mass × 2` lands in
`similar`, never in `bigger`. -/
theorem categorizeFishByMass_partition (fish : Fish) (neighbors : List Fish)
    (hm : 0 < fish.mass) (bigger similar smaller : List Fish)
    (heq : categorizeFishByMass fish neighbors FISH.MASS_THRESHOLD_BIGGER
        FISH.MASS_THRESHOLD_SMALLER = (bigger, similar, smaller)) :
    bigger = neighbors.filter
      (fun n => decide (n.mass > fish.mass * FISH.MASS_THRESHOLD_BIGGER)) ∧
    smaller = neighbors.filter
      (fun n => decide (n.mass < fish.mass * FISH.MASS_THRESHOLD_SMALLER)) ∧
    bigger.length + similar.length + smaller.length = neighbors.length ∧
    (∀ a : Fish, ¬ (a ∈ bigger ∧ a ∈ similar) ∧ ¬ (a ∈ bigger ∧ a ∈ smaller) ∧
      ¬ (a ∈ similar ∧ a ∈ smaller)) ∧
    (∀ n ∈ neighbors, n.mass = fish.mass * FISH.MASS_THRESHOLD_BIGGER →
      n ∈ similar ∧ n ∉ bigger) := by
  have hb : bigger = (categorizeFishByMass fish neighbors FISH.MASS_THRESHOLD_BIGGER
      FISH.MASS_THRESHOLD_SMALLER).1 := by rw [heq]
  have hs : similar = (categorizeFishByMass fish neighbors FISH.MASS_THRESHOLD_BIGGER
      FISH.MASS_THRESHOLD_SMALLER).2.1 := by rw [heq]
  have hsm : smaller = (categorizeFishByMass fish neighbors FISH.MASS_THRESHOLD_BIGGER
      FISH.MASS_THRESHOLD_SMALLER).2.2 := by rw [heq]
  have hthr : fish.mass * FISH.MASS_THRESHOLD_SMALLER <
      fish.mass * FISH.MASS_THRESHOLD_BIGGER := by
    rw [FISH.MASS_THRESHOLD_SMALLER, FISH.MASS_THRESHOLD_BIGGER]
    nlinarith
  have hbig : bigger = neighbors.filter
      (fun n => decide (n.mass > fish.mass * FISH.MASS_THRESHOLD_BIGGER)) := by
    rw [hb, categorize_bigger]
  have hsmall : smaller = neighbors.filter
      (fun n => decide (n.mass < fish.mass * FISH.MASS_THRESHOLD_SMALLER)) := by
    rw [hsm, categorize_smaller]
    apply List.filter_congr
    intro n _
    rw [decide_eq_decide]
    constructor
    · exact fun h => h.2
    · intro h
      exact ⟨fun hgt => absurd (lt_trans hthr hgt) (not_lt.mpr (le_of_lt h)), h⟩
  have hsimil : similar = neighbors.filter
      (fun n => decide (¬ n.mass > fish.mass * FISH.MASS_THRESHOLD_BIGGER ∧
        ¬ n.mass < fish.mass * FISH.MASS_THRESHOLD_SMALLER)) := by
    rw [hs, categorize_similar]
  refine ⟨hbig, hsmall, ?_, ?_, ?_⟩
  · rw [hb, hs, hsm]
    exact categorize_length fish _ _ neighbors
  · intro a
    refine ⟨?_, ?_, ?_⟩
    · rintro ⟨ha1, ha2⟩
      rw [hbig, List.mem_filter] at ha1
      rw [hsimil, List.mem_filter] at ha2
      rw [decide_eq_true_iff] at ha1 ha2
      exact ha2.2.1 ha1.2
    · rintro ⟨ha1, ha2⟩
      rw [hbig, List.mem_filter] at ha1
      rw [hsmall, List.mem_filter] at ha2
      rw [decide_eq_true_iff] at ha1 ha2
      exact absurd (lt_trans hthr ha1.2) (not_lt.mpr (le_of_lt ha2.2))
    · rintro ⟨ha1, ha2⟩
      rw [hsimil, List.mem_filter] at ha1
      rw [hsmall, List.mem_filter] at ha2
      rw [decide_eq_true_iff] at ha1 ha2
      exact ha1.2.2 ha2.2
  · intro n hn hmass
    constructor
    · rw [hsimil, List.mem_filter, decide_eq_true_iff]
      refine ⟨hn, fun hgt => ?_, fun hlt => ?_⟩
      · rw [hmass] at hgt
        exact lt_irrefl _ hgt
      · rw [hmass] at hlt
        exact absurd (lt_trans hlt hthr) (lt_irrefl _)
    · rw [hbig, List.mem_filter, decide_eq_true_iff]
      rintro ⟨-, hgt⟩
      rw [hmass] at hgt
      exact lt_irrefl _ hgt

/-- Neighbor of mass `3` (strictly more than `2 × 1`). -/
noncomputable def bigNeighbor : Fish := ⟨10, 3, ⟨0, 0⟩, ⟨0, 0⟩, ⟨0, 0⟩, ⟨0.2, 0.2⟩, 3⟩

/-- Neighbor of mass `1`. -/
noncomputable def similarNeighbor : Fish := ⟨11, 1, ⟨0, 0⟩, ⟨0, 0⟩, ⟨0, 0⟩, ⟨0.2, 0.2⟩, 3⟩

/-- Neighbor of mass `1/5` (strictly less than `0.5 × 1`). -/
noncomputable def smallNeighbor : Fish := ⟨12, 1/5, ⟨0, 0⟩, ⟨0, 0⟩, ⟨0, 0⟩, ⟨0.2, 0.2⟩, 3⟩

/-- Neighbor of mass exactly `2 = 1 × MASS_THRESHOLD_BIGGER`. -/
noncomputable def boundaryNeighbor : Fish := ⟨13, 2, ⟨0, 0⟩, ⟨0, 0⟩, ⟨0, 0⟩, ⟨0.2, 0.2⟩, 3⟩

theorem categorizeFishByMass_partition_witness :
    (0:ℝ) < unitFish.mass ∧
    categorizeFishByMass unitFish
        [bigNeighbor, similarNeighbor, smallNeighbor, boundaryNeighbor]
        FISH.MASS_THRESHOLD_BIGGER FISH.MASS_THRESHOLD_SMALLER =
      ([bigNeighbor], [similarNeighbor, boundaryNeighbor], [smallNeighbor]) ∧
    ([bigNeighbor] =
      [bigNeighbor, similarNeighbor, smallNeighbor, boundaryNeighbor].filter
        (fun n => decide (n.mass > unitFish.mass * FISH.MASS_THRESHOLD_BIGGER)) ∧
     [smallNeighbor] =
      [bigNeighbor, similarNeighbor, smallNeighbor, boundaryNeighbor].filter
        (fun n => decide (n.mass < unitFish.mass * FISH.MASS_THRESHOLD_SMALLER)) ∧
     ([bigNeighbor] : List Fish).length + ([similarNeighbor, boundaryNeighbor] : List Fish).length +
       ([smallNeighbor] : List Fish).length =
       ([bigNeighbor, similarNeighbor, smallNeighbor, boundaryNeighbor] : List Fish).length ∧
     (∀ a : Fish, ¬ (a ∈ [bigNeighbor] ∧ a ∈ [similarNeighbor, boundaryNeighbor]) ∧
       ¬ (a ∈ [bigNeighbor] ∧ a ∈ [smallNeighbor]) ∧
       ¬ (a ∈ [similarNeighbor, boundaryNeighbor] ∧ a ∈ [smallNeighbor])) ∧
     (∀ n ∈ [bigNeighbor, similarNeighbor, smallNeighbor, boundaryNeighbor],
       n.mass = unitFish.mass * FISH.MASS_THRESHOLD_BIGGER →
       n ∈ [similarNeighbor, boundaryNeighbor] ∧ n ∉ [bigNeighbor])) := by
  have hm : (0:ℝ) < unitFish.mass := by norm_num [unitFish]
  have hq : categorizeFishByMass unitFish
      [bigNeighbor, similarNeighbor, smallNeighbor, boundaryNeighbor]
      FISH.MASS_THRESHOLD_BIGGER FISH.MASS_THRESHOLD_SMALLER =
      ([bigNeighbor], [similarNeighbor, boundaryNeighbor], [smallNeighbor]) := by
    norm_num [categorizeFishByMass, unitFish, bigNeighbor, similarNeighbor,
      smallNeighbor, boundaryNeighbor, FISH.MASS_THRESHOLD_BIGGER,
      FISH.MASS_THRESHOLD_SMALLER]
  exact ⟨hm, hq, categorizeFishByMass_partition unitFish _ hm _ _ _ hq⟩

/-! ## `SpatialGrid` (`src/unnamed/part_013`, C1)

The JS `Map<string, Fish[]>` keyed by `` `${gridX},${gridY}` `` is modelled as
a total function from integer key pairs to buckets: the string key is in
bijection with the pair of integers, and a `Map` lookup miss (`undefined`,
skipped by `if (cell)`) behaves exactly like an empty bucket. -/

structure SpatialGrid where
  cellSize : ℝ
  cells : ℤ × ℤ → List Fish

namespace SpatialGrid

/-- `getCellKey`: `(Math.floor(x / cellSize), Math.floor(y / cellSize))`. -/
noncomputable def getCellKey (g : SpatialGrid) (x y : ℝ) : ℤ × ℤ :=
  (⌊x / g.cellSize⌋, ⌊y / g.cellSize⌋)

/-- `insert`: push the fish onto the bucket of its cell key (bucket created
lazily — pushing onto the missing-bucket default `[]`). -/
noncomputable def insert (g : SpatialGrid) (fish : Fish) : SpatialGrid :=
  { g with cells := fun k =>
      if k = g.getCellKey fish.location.x fish.location.y
      then g.cells k ++ [fish] else g.cells k }

/-- `clear`: drop all buckets. -/
def clear (g : SpatialGrid) : SpatialGrid := { g with cells := fun _ => [] }

/-- `updateGrid`: `clear()` then `insert` every fish in order. -/
noncomputable def updateGrid (g : SpatialGrid) (fishes : List Fish) : SpatialGrid :=
  fishes.foldl SpatialGrid.insert g.clear

/-- The integer interval `[a..b]` scanned by `for (let x = minX; x <= maxX; x++)`. -/
def intRange (a b : ℤ) : List ℤ :=
  (List.range (b + 1 - a).toNat).map fun (i : ℕ) => a + (i : ℤ)

/-- `query`: scan every cell whose key lies in the floor-bounded rectangle
around the circle, keeping the fish at true Euclidean distance ≤ `radius`. -/
noncomputable def query (g : SpatialGrid) (position : Vector) (radius : ℝ) : List Fish :=
  let minX := ⌊(position.x - radius) / g.cellSize⌋
  let minY := ⌊(position.y - radius) / g.cellSize⌋
  let maxX := ⌊(position.x + radius) / g.cellSize⌋
  let maxY := ⌊(position.y + radius) / g.cellSize⌋
  (intRange minX maxX).flatMap fun x =>
    (intRange minY maxY).flatMap fun y =>
      (g.cells (x, y)).filter fun fish => decide (position.dist fish.location ≤ radius)

theorem query_eq (g : SpatialGrid) (p : Vector) (r : ℝ) :
    g.query p r =
      (intRange ⌊(p.x - r) / g.cellSize⌋ ⌊(p.x + r) / g.cellSize⌋).flatMap
        (fun x =>
          (intRange ⌊(p.y - r) / g.cellSize⌋ ⌊(p.y + r) / g.cellSize⌋).flatMap
            fun y =>
              (g.cells (x, y)).filter fun fish =>
                decide (p.dist fish.location ≤ r)) := rfl

theorem intRange_mem {a b x : ℤ} : x ∈ intRange a b ↔ a ≤ x ∧ x ≤ b := by
  unfold intRange
  rw [List.mem_map]
  constructor
  · rintro ⟨i, hi, rfl⟩
    rw [List.mem_range] at hi
    omega
  · rintro ⟨h1, h2⟩
    refine ⟨(x - a).toNat, ?_, ?_⟩
    · rw [List.mem_range]
      omega
    · omega

theorem intRange_nodup (a b : ℤ) : (intRange a b).Nodup := by
  refine List.Nodup.map (fun i j h => ?_) (List.nodup_range _)
  exact Nat.cast_inj.mp (add_left_cancel h)

theorem cellSize_insert (g : SpatialGrid) (f : Fish) :
    (g.insert f).cellSize = g.cellSize := rfl

theorem count_cells_foldl (a : Fish) (l : List Fish) (g : SpatialGrid) (k : ℤ × ℤ) :
    ((l.foldl SpatialGrid.insert g).cells k).count a =
      (g.cells k).count a +
        (if k = g.getCellKey a.location.x a.location.y then l.count a else 0) := by
  induction l generalizing g with
  | nil => simp
  | cons f rest ih =>
    rw [List.foldl_cons, ih]
    have hcells : (g.insert f).cells k =
        if k = g.getCellKey f.location.x f.location.y
        then g.cells k ++ [f] else g.cells k := rfl
    have hkey : (g.insert f).getCellKey a.location.x a.location.y =
        g.getCellKey a.location.x a.location.y := rfl
    rw [hkey, hcells]
    by_cases hk : k = g.getCellKey f.location.x f.location.y
    · rw [if_pos hk, List.count_append]
      by_cases hfa : f = a
      · subst hfa
        have hka : k = g.getCellKey f.location.x f.location.y := hk
        rw [if_pos hka, if_pos hka, List.count_cons_self]
        simp [List.count_singleton]
        omega
      · have h1 : ([f].count a) = 0 := by
          simp [List.count_singleton, hfa]
        rw [h1, List.count_cons_of_ne (fun h => hfa h.symm)]
        -- count a (f :: rest) = count a rest when f ≠ a
        omega
    · rw [if_neg hk]
      by_cases hfa : f = a
      · subst hfa
        rw [if_neg hk, if_neg hk]
      · rw [List.count_cons_of_ne (fun h => hfa h.symm)]

theorem count_updateGrid (g : SpatialGrid) (fishes : List Fish) (a : Fish) (k : ℤ × ℤ) :
    ((g.updateGrid fishes).cells k).count a =
      if k = g.getCellKey a.location.x a.location.y then fishes.count a else 0 := by
  rw [updateGrid, count_cells_foldl]
  simp [clear]
  rfl

theorem cellSize_foldl (l : List Fish) (g : SpatialGrid) :
    (l.foldl SpatialGrid.insert g).cellSize = g.cellSize := by
  induction l generalizing g with
  | nil => rfl
  | cons f rest ih => rw [List.foldl_cons, ih, cellSize_insert]

theorem cellSize_updateGrid (g : SpatialGrid) (l : List Fish) :
    (g.updateGrid l).cellSize = g.cellSize :=
  cellSize_foldl l g.clear

end SpatialGrid

/-- `count` over a filtered list, in if-form. -/
theorem count_filter_ite {α : Type} [DecidableEq α] (p : α → Bool) (l : List α) (a : α) :
    (l.filter p).count a = if p a then l.count a else 0 := by
  by_cases h : p a = true
  · rw [if_pos h, List.count_filter h]
  · rw [if_neg h, List.count_eq_zero]
    intro hmem
    exact h (List.mem_filter.mp hmem).2

/-- Sum of an indicator-like map over a duplicate-free list. -/
theorem sum_map_ite_count {α : Type} [DecidableEq α] (xs : List α) (t : α) (n : ℕ)
    (hnd : xs.Nodup) :
    (xs.map fun x => if x = t then n else 0).sum = if t ∈ xs then n else 0 := by
  induction xs with
  | nil => simp
  | cons x rest ih =>
    rw [List.map_cons, List.sum_cons, ih (List.nodup_cons.mp hnd).2]
    by_cases hx : x = t
    · subst hx
      have hnx : x ∉ rest := (List.nodup_cons.mp hnd).1
      rw [if_pos rfl, if_neg hnx, if_pos (List.mem_cons_self x rest)]
      omega
    · rw [if_neg hx]
      by_cases ht : t ∈ rest
      · rw [if_pos ht, if_pos (List.mem_cons_of_mem x ht)]
        omega
      · have htx : t ∉ x :: rest := by
          intro hmem
          rcases List.mem_cons.mp hmem with h | h
          · exact hx h.symm
          · exact ht h
        rw [if_neg ht, if_neg htx]

/-- The x-offset is bounded by the Euclidean distance. -/
theorem abs_dx_le_dist (p q : Vector) : |p.x - q.x| ≤ p.dist q := by
  rw [Vector.dist, ← Real.sqrt_mul_self_eq_abs]
  apply Real.sqrt_le_sqrt
  nlinarith [mul_self_nonneg (p.y - q.y)]

/-- The y-offset is bounded by the Euclidean distance. -/
theorem abs_dy_le_dist (p q : Vector) : |p.y - q.y| ≤ p.dist q := by
  rw [Vector.dist, ← Real.sqrt_mul_self_eq_abs]
  apply Real.sqrt_le_sqrt
  nlinarith [mul_self_nonneg (p.x - q.x)]

/-- The per-fish count of a `query` over a freshly rebuilt grid equals the
per-fish count of the brute-force distance filter. -/
theorem count_query_eq_count_filter (g : SpatialGrid) (fishes : List Fish)
    (p : Vector) (r : ℝ) (hcs : 0 < g.cellSize) (a : Fish) :
    ((g.updateGrid fishes).query p r).count a =
      (fishes.filter fun x => decide (p.dist x.location ≤ r)).count a := by
  classical
  have hGcs : (g.updateGrid fishes).cellSize = g.cellSize :=
    SpatialGrid.cellSize_updateGrid g fishes
  rw [SpatialGrid.query_eq, hGcs]
  set k1 := ⌊a.location.x / g.cellSize⌋ with hk1
  set k2 := ⌊a.location.y / g.cellSize⌋ with hk2
  set N := fishes.count a with hN
  have hbucket : ∀ k : ℤ × ℤ, ((g.updateGrid fishes).cells k).count a =
      if k = (k1, k2) then N else 0 := by
    intro k
    rw [SpatialGrid.count_updateGrid]
    rfl
  have hcell : ∀ gx gy : ℤ,
      (((g.updateGrid fishes).cells (gx, gy)).filter
        (fun fish => decide (p.dist fish.location ≤ r))).count a =
      if decide (p.dist a.location ≤ r) = true
      then (if gx = k1 ∧ gy = k2 then N else 0) else 0 := by
    intro gx gy
    rw [count_filter_ite, hbucket]
    by_cases hpa : decide (p.dist a.location ≤ r) = true
    · rw [if_pos hpa, if_pos hpa]
      exact if_congr (by simp) rfl rfl
    · rw [if_neg hpa, if_neg hpa]
  rw [List.count_flatMap, count_filter_ite]
  by_cases hpa : decide (p.dist a.location ≤ r) = true
  · have hd : p.dist a.location ≤ r := of_decide_eq_true hpa
    have hxlo : ⌊(p.x - r) / g.cellSize⌋ ≤ k1 := by
      apply Int.floor_le_floor
      apply (div_le_div_iff_of_pos_right hcs).mpr
      have := (abs_le.mp (le_trans (abs_dx_le_dist p a.location) hd)).2
      linarith
    have hxhi : k1 ≤ ⌊(p.x + r) / g.cellSize⌋ := by
      apply Int.floor_le_floor
      apply (div_le_div_iff_of_pos_right hcs).mpr
      have := (abs_le.mp (le_trans (abs_dx_le_dist p a.location) hd)).1
      linarith
    have hylo : ⌊(p.y - r) / g.cellSize⌋ ≤ k2 := by
      apply Int.floor_le_floor
      apply (div_le_div_iff_of_pos_right hcs).mpr
      have := (abs_le.mp (le_trans (abs_dy_le_dist p a.location) hd)).2
      linarith
    have hyhi : k2 ≤ ⌊(p.y + r) / g.cellSize⌋ := by
      apply Int.floor_le_floor
      apply (div_le_div_iff_of_pos_right hcs).mpr
      have := (abs_le.mp (le_trans (abs_dy_le_dist p a.location) hd)).1
      linarith
    have hinner : ∀ gx : ℤ,
        ((SpatialGrid.intRange ⌊(p.y - r) / g.cellSize⌋ ⌊(p.y + r) / g.cellSize⌋).flatMap
          (fun y => ((g.updateGrid fishes).cells (gx, y)).filter
            fun fish => decide (p.dist fish.location ≤ r))).count a =
        if gx = k1 then N else 0 := by
      intro gx
      rw [List.count_flatMap]
      by_cases hgx : gx = k1
      · have hthis : ∀ gy : ℤ,
            (((g.updateGrid fishes).cells (gx, gy)).filter
              (fun fish => decide (p.dist fish.location ≤ r))).count a =
            if gy = k2 then N else 0 := by
          intro gy
          rw [hcell, if_pos hpa]
          by_cases hgy : gy = k2
          · rw [if_pos hgy, if_pos ⟨hgx, hgy⟩]
          · rw [if_neg hgy, if_neg (fun h => hgy h.2)]
        rw [List.map_congr_left (fun gy _ => by rw [Function.comp_apply, hthis gy]),
          sum_map_ite_count _ _ _ (SpatialGrid.intRange_nodup _ _), if_pos hgx,
          if_pos (SpatialGrid.intRange_mem.mpr ⟨hylo, hyhi⟩)]
      · have : ∀ gy : ℤ,
            (((g.updateGrid fishes).cells (gx, gy)).filter
              (fun fish => decide (p.dist fish.location ≤ r))).count a = 0 := by
          intro gy
          rw [hcell, if_pos hpa, if_neg (fun h => hgx h.1)]
        rw [if_neg hgx]
        apply List.sum_eq_zero
        intro x hx
        obtain ⟨gy, _, rfl⟩ := List.mem_map.mp hx
        rw [Function.comp_apply, this gy]
    rw [List.map_congr_left (fun gx _ => by rw [Function.comp_apply, hinner gx]),
      sum_map_ite_count _ _ _ (SpatialGrid.intRange_nodup _ _),
      if_pos (SpatialGrid.intRange_mem.mpr ⟨hxlo, hxhi⟩), if_pos hpa]
  · rw [if_neg hpa]
    apply List.sum_eq_zero
    intro x hx
    obtain ⟨gx, _, rfl⟩ := List.mem_map.mp hx
    rw [Function.comp_apply, List.count_flatMap]
    apply List.sum_eq_zero
    intro y hy
    obtain ⟨gy, _, rfl⟩ := List.mem_map.mp hy
    rw [Function.comp_apply, hcell, if_neg hpa]

/-- Claim C1: after `updateGrid` over any duplicate-free fish list, and for
any query position and radius `r ≥ 0` and any positive cell size,
`query(p, r)` is a permutation of — hence set-equivalent to — the brute-force
`dist(p, a.location) ≤ r` filter over all fish, and contains no duplicates. -/
theorem spatialGrid_query_correct (g : SpatialGrid) (fishes : List Fish)
    (p : Vector) (r : ℝ) (hcs : 0 < g.cellSize) (hr : 0 ≤ r)
    (hnd : fishes.Nodup) :
    ((g.updateGrid fishes).query p r).Perm
      (fishes.filter fun a => decide (p.dist a.location ≤ r)) ∧
    ((g.updateGrid fishes).query p r).Nodup := by
  have hperm : ((g.updateGrid fishes).query p r).Perm
      (fishes.filter fun a => decide (p.dist a.location ≤ r)) :=
    List.perm_iff_count.mpr fun a => count_query_eq_count_filter g fishes p r hcs a
  exact ⟨hperm, hperm.nodup_iff.mpr (hnd.filter _)⟩

/-- A grid with the production cell size `SPATIAL_CELL_SIZE = 100` and no
buckets. -/
noncomputable def grid100 : SpatialGrid := ⟨SIMULATION.SPATIAL_CELL_SIZE, fun _ => []⟩

theorem spatialGrid_query_correct_witness :
    0 < grid100.cellSize ∧ (0:ℝ) ≤ 1 ∧ ([unitFish] : List Fish).Nodup ∧
    (((grid100.updateGrid [unitFish]).query ⟨0, 0⟩ 1).Perm
      ([unitFish].filter fun a =>
        decide ((⟨0, 0⟩ : Vector).dist a.location ≤ 1)) ∧
     ((grid100.updateGrid [unitFish]).query ⟨0, 0⟩ 1).Nodup) :=
  ⟨by norm_num [grid100, SIMULATION.SPATIAL_CELL_SIZE], by norm_num,
   List.nodup_singleton _,
   spatialGrid_query_correct grid100 [unitFish] ⟨0, 0⟩ 1
     (by norm_num [grid100, SIMULATION.SPATIAL_CELL_SIZE]) (by norm_num)
     (List.nodup_singleton _)⟩

/-! ## Population initialization (`Simulation.initFish`, `src/unnamed/part_011`, C6) -/

/-- The `fishCount` selected by `initFish`: `numFish || min(max(scaledWidth /
600 * 50, MIN_FISH), min(canvasWidth / 600 * 50, MAX_FISH))` — an explicitly
requested nonzero (truthy) count is used as-is, the width-derived formula is
only the fallback. -/
noncomputable def initFishCount (numFish : Option ℝ) (canvasWidth dpr : ℝ) : ℝ :=
  let scaledWidth := canvasWidth / dpr
  let computed :=
    min (max (scaledWidth / 600 * 50) SIMULATION.MIN_FISH)
      (min (canvasWidth / 600 * 50) SIMULATION.MAX_FISH)
  match numFish with
  | some n => if n ≠ 0 then n else computed
  | none => computed

/-- The number of fish created by `for (let i = 0; i < fishCount; i++)`: the
number of naturals strictly below `c`, i.e. `⌈c⌉` clamped to `0`. -/
noncomputable def initFishCreated (c : ℝ) : ℕ := (Int.ceil c).toNat

/-- Counterexample to claim C6 as stated: a requested count is used verbatim —
`initFish(500)` creates 500 fish, far above `MAX_FISH = 200`.  No clamping
happens on the requested path (`numFish || ...` short-circuits). -/
theorem initFish_clamp_cex :
    initFishCount (some 500) 800 1 = 500 ∧
    initFishCreated (initFishCount (some 500) 800 1) = 500 ∧
    ¬ initFishCount (some 500) 800 1 ≤ SIMULATION.MAX_FISH := by
  have h : initFishCount (some 500) 800 1 = 500 := by
    norm_num [initFishCount]
  refine ⟨h, ?_, ?_⟩
  · rw [h, initFishCreated]
    norm_num
    decide
  · rw [h]
    norm_num [SIMULATION.MAX_FISH]

/-- Claim C6 (amended): only the computed (no explicit request) path is
bounded, and its lower bound additionally needs the canvas to be at least
`360` px wide (otherwise `min(canvasWidth / 600 * 50, MAX_FISH)` itself drops
below `MIN_FISH`); under that proviso the computed count and the number of
created fish lie in `[MIN_FISH, MAX_FISH] = [30, 200]`.  Explicitly requested
counts are not clamped (see the counterexample). -/
theorem initFish_computed_count_in_range (canvasWidth dpr : ℝ)
    (hw : 360 ≤ canvasWidth) :
    SIMULATION.MIN_FISH ≤ initFishCount none canvasWidth dpr ∧
    initFishCount none canvasWidth dpr ≤ SIMULATION.MAX_FISH ∧
    30 ≤ initFishCreated (initFishCount none canvasWidth dpr) ∧
    initFishCreated (initFishCount none canvasWidth dpr) ≤ 200 := by
  have hc : initFishCount none canvasWidth dpr =
      min (max (canvasWidth / dpr / 600 * 50) SIMULATION.MIN_FISH)
        (min (canvasWidth / 600 * 50) SIMULATION.MAX_FISH) := rfl
  have hmin : (SIMULATION.MIN_FISH : ℝ) = 30 := rfl
  have hmax : (SIMULATION.MAX_FISH : ℝ) = 200 := rfl
  have hlo : SIMULATION.MIN_FISH ≤ initFishCount none canvasWidth dpr := by
    rw [hc, hmin, le_min_iff]
    constructor
    · exact le_max_right _ _
    · rw [le_min_iff, hmax]
      constructor
      · linarith
      · norm_num
  have hhi : initFishCount none canvasWidth dpr ≤ SIMULATION.MAX_FISH := by
    rw [hc, hmax]
    exact le_trans (min_le_right _ _) (min_le_right _ _)
  refine ⟨hlo, hhi, ?_, ?_⟩
  · rw [initFishCreated]
    have h30 : (30 : ℤ) ≤ ⌈initFishCount none canvasWidth dpr⌉ := by
      rw [show (30 : ℤ) = ⌈(30 : ℝ)⌉ by norm_num]
      exact Int.ceil_le_ceil (by rw [← hmin]; exact hlo)
    omega
  · rw [initFishCreated]
    have h200 : ⌈initFishCount none canvasWidth dpr⌉ ≤ (200 : ℤ) := by
      rw [show (200 : ℤ) = ⌈(200 : ℝ)⌉ by norm_num]
      exact Int.ceil_le_ceil (by rw [← hmax]; exact hhi)
    omega

theorem initFish_computed_count_in_range_witness :
    (360 : ℝ) ≤ 600 ∧
    (SIMULATION.MIN_FISH ≤ initFishCount none 600 1 ∧
     initFishCount none 600 1 ≤ SIMULATION.MAX_FISH ∧
     30 ≤ initFishCreated (initFishCount none 600 1) ∧
     initFishCreated (initFishCount none 600 1) ≤ 200) :=
  ⟨by norm_num, initFish_computed_count_in_range 600 1 (by norm_num)⟩

/-! ## Adaptive quality (`Simulation.updateAdaptiveQuality` and
`Simulation.applyQualitySettings`, `src/unnamed/part_011`, C9) -/

inductive Quality where
  | low
  | medium
  | high
deriving DecidableEq

/-- The slice of `Simulation` state the adaptive-quality logic reads and
writes.  `highFishMax` is the mutable `qualityLevels.high.fishMax` (a JS
number — the high-tier recalculation can assign a fractional value);
`low`/`medium` have the fixed `fishMax` values 30/60.  The fish spawned by
`addFish` draw `Math.random()`; that random stream is supplied as the
`spawn` oracle. -/
structure SimState where
  adaptiveQuality : Bool
  fps : ℝ
  fpsHistory : List ℝ
  currentQuality : Quality
  highFishMax : ℝ
  creatures : List Fish
  canvasWidth : ℝ
  dpr : ℝ

namespace SimState

def fpsHistorySize : ℕ := 10
def fpsThresholdLow : ℝ := 30
def fpsThresholdMedium : ℝ := 45
def lowFishMax : ℝ := 30
def mediumFishMax : ℝ := 60
def lowDetailLevel : ℕ := 1
def mediumDetailLevel : ℕ := 2
def highDetailLevel : ℕ := 3

/-- `this.qualityLevels[quality].fishMax`. -/
noncomputable def fishMaxOf (s : SimState) : Quality → ℝ
  | Quality.low => lowFishMax
  | Quality.medium => mediumFishMax
  | Quality.high => s.highFishMax

/-- `this.qualityLevels[quality].detailLevel`. -/
def detailLevelOf : Quality → ℕ
  | Quality.low => lowDetailLevel
  | Quality.medium => mediumDetailLevel
  | Quality.high => highDetailLevel

/-- `idealFishCount = min(max(scaledWidth / 600 * 50, MIN_FISH), MAX_FISH)`. -/
noncomputable def idealFishCount (s : SimState) : ℝ :=
  min (max (s.canvasWidth / s.dpr / 600 * 50) SIMULATION.MIN_FISH) SIMULATION.MAX_FISH

/-- `applyQualitySettings`: on the high tier, first refresh
`qualityLevels.high.fishMax`; then truncate (`slice(0, target)`, end index
truncated to an integer — the target is always ≥ 30 here, so `⌊·⌋`) or spawn
(`addFish(target - current)`, loop running `⌈·⌉` times for a positive bound)
the population to the tier's `fishMax`, and stamp the tier's `detailLevel`
on every fish. -/
noncomputable def applyQualitySettings (spawn : ℕ → Fish) (s : SimState) : SimState :=
  let s1 := if s.currentQuality = Quality.high
    then { s with highFishMax := min s.idealFishCount SIMULATION.MAX_FISH } else s
  let target := s1.fishMaxOf s1.currentQuality
  let detail := detailLevelOf s1.currentQuality
  let current := s1.creatures.length
  let creatures :=
    if (current : ℝ) > target then s1.creatures.take (Int.floor target).toNat
    else if (current : ℝ) < target then
      s1.creatures ++ (List.range (Int.ceil (target - (current : ℝ))).toNat).map spawn
    else s1.creatures
  { s1 with creatures := creatures.map fun f => { f with detailLevel := detail } }

/-- `updateAdaptiveQuality`: push the current FPS sample (dropping the oldest
once the window exceeds `fpsHistorySize`), return early while the window is
not yet full, otherwise compare the mean against the two thresholds, switch
tier, and re-apply the quality settings when the tier changed. -/
noncomputable def updateAdaptiveQuality (spawn : ℕ → Fish) (s : SimState) : SimState :=
  if s.adaptiveQuality = false then s else
  let hist0 := s.fpsHistory ++ [s.fps]
  let hist := if hist0.length > fpsHistorySize then hist0.drop 1 else hist0
  if hist.length < fpsHistorySize then { s with fpsHistory := hist } else
  let avgFps := hist.sum / (hist.length : ℝ)
  let s1 : SimState :=
    if avgFps < fpsThresholdLow ∧ s.currentQuality ≠ Quality.low then
      { s with fpsHistory := hist, currentQuality := Quality.low }
    else if fpsThresholdLow ≤ avgFps ∧ avgFps < fpsThresholdMedium ∧
        s.currentQuality ≠ Quality.medium then
      { s with fpsHistory := hist, currentQuality := Quality.medium }
    else if fpsThresholdMedium ≤ avgFps ∧ s.currentQuality ≠ Quality.high then
      { s with
        fpsHistory := hist
        currentQuality := Quality.high
        highFishMax := min s.idealFishCount SIMULATION.MAX_FISH }
    else { s with fpsHistory := hist }
  if s.currentQuality ≠ s1.currentQuality then applyQualitySettings spawn s1 else s1

end SimState

/-- A list of reals all strictly below `c` has sum strictly below
`c * length` when nonempty. -/
theorem list_sum_lt {l : List ℝ} {c : ℝ} (hne : l ≠ []) (h : ∀ x ∈ l, x < c) :
    l.sum < c * l.length := by
  induction l with
  | nil => exact absurd rfl hne
  | cons x rest ih =>
    rcases eq_or_ne rest [] with rfl | hr
    · simpa using h x (List.mem_cons_self x [])
    · have hrest := ih hr fun y hy => h y (List.mem_cons_of_mem x hy)
      have hx := h x (List.mem_cons_self x rest)
      rw [List.sum_cons, List.length_cons]
      push_cast
      linarith

/-- `applyQualitySettings` on the low tier keeps the tier and leaves at most
`lowFishMax = 30` fish. -/
theorem applyQuality_low_count (spawn : ℕ → Fish) (s : SimState)
    (hq : s.currentQuality = Quality.low) :
    (SimState.applyQualitySettings spawn s).currentQuality = Quality.low ∧
    (((SimState.applyQualitySettings spawn s).creatures.length : ℝ) ≤
      SimState.lowFishMax) := by
  have hne : ¬ s.currentQuality = Quality.high := by rw [hq]; simp
  have hs1 : (if s.currentQuality = Quality.high
      then { s with highFishMax := min s.idealFishCount SIMULATION.MAX_FISH }
      else s) = s := if_neg hne
  have hlow : SimState.lowFishMax = (30 : ℝ) := rfl
  rw [SimState.applyQualitySettings]
  simp only [hs1]
  simp only [hq, SimState.fishMaxOf, SimState.detailLevelOf, List.length_map]
  refine ⟨by simp [hq], ?_⟩
  rcases lt_trichotomy ((s.creatures.length : ℝ)) SimState.lowFishMax with hlt | heqq | hgt
  · rw [if_neg (not_lt.mpr (le_of_lt hlt)), if_pos hlt]
    have hn : s.creatures.length < 30 := by
      rw [hlow] at hlt
      exact_mod_cast hlt
    have hceil : (Int.ceil (SimState.lowFishMax - (s.creatures.length : ℝ))).toNat =
        30 - s.creatures.length := by
      rw [hlow]
      rw [show (30 : ℝ) - (s.creatures.length : ℝ) =
        (((30 - (s.creatures.length : ℤ)) : ℤ) : ℝ) by push_cast; ring]
      rw [Int.ceil_intCast]
      omega
    have hlen30 : s.creatures.length + (30 - s.creatures.length) = 30 := by omega
    rw [List.length_append, List.length_map, List.length_range, hceil, hlow, hlen30]
    norm_num
  · rw [if_neg (not_lt.mpr (le_of_eq heqq)), if_neg (not_lt.mpr (le_of_eq heqq.symm))]
    exact le_of_eq heqq
  · rw [if_pos hgt]
    have hfloor : (Int.floor SimState.lowFishMax).toNat = 30 := by
      rw [hlow]
      norm_num
      decide
    rw [List.length_take, hfloor, hlow]
    have hmin : min 30 s.creatures.length ≤ 30 := min_le_left _ _
    exact_mod_cast hmin

/-- Claim C9 (amended): when adaptive quality is enabled, the ten-sample
window is full, every stored sample and the sample recorded at this
evaluation are below the low threshold `30`, and the active tier is not
already `low`, then after `updateAdaptiveQuality` the tier is `low` and the
fish count is at most `qualityLevels.low.fishMax = 30`. -/
theorem quality_low_spec (spawn : ℕ → Fish) (s : SimState)
    (hadapt : s.adaptiveQuality = true)
    (hlen : s.fpsHistory.length = SimState.fpsHistorySize)
    (hall : ∀ x ∈ s.fpsHistory, x < SimState.fpsThresholdLow)
    (hfps : s.fps < SimState.fpsThresholdLow)
    (hq : s.currentQuality ≠ Quality.low) :
    (SimState.updateAdaptiveQuality spawn s).currentQuality = Quality.low ∧
    (((SimState.updateAdaptiveQuality spawn s).creatures.length : ℝ) ≤
      SimState.lowFishMax) := by
  have hsize : SimState.fpsHistorySize = 10 := rfl
  have hlow : SimState.fpsThresholdLow = (30 : ℝ) := rfl
  have hlen0 : (s.fpsHistory ++ [s.fps]).length = 11 := by
    rw [List.length_append, hlen, hsize]
    rfl
  have hc1 : (s.fpsHistory ++ [s.fps]).length > SimState.fpsHistorySize := by
    rw [hlen0, hsize]
    norm_num
  have hlenh : ((s.fpsHistory ++ [s.fps]).drop 1).length = 10 := by
    rw [List.length_drop, hlen0]
  have hallh : ∀ x ∈ (s.fpsHistory ++ [s.fps]).drop 1, x < 30 := by
    intro x hx
    have hx0 : x ∈ s.fpsHistory ++ [s.fps] := List.mem_of_mem_drop hx
    rcases List.mem_append.mp hx0 with h | h
    · rw [← hlow]
      exact hall x h
    · rw [List.mem_singleton] at h
      subst h
      rw [← hlow]
      exact hfps
  have havg : ((s.fpsHistory ++ [s.fps]).drop 1).sum /
      ((((s.fpsHistory ++ [s.fps]).drop 1).length : ℕ) : ℝ) < SimState.fpsThresholdLow := by
    have hne : (s.fpsHistory ++ [s.fps]).drop 1 ≠ [] := by
      intro h
      rw [h] at hlenh
      simp at hlenh
    have hs := list_sum_lt hne hallh
    rw [hlenh] at hs ⊢
    rw [hlow]
    rw [div_lt_iff (by norm_num)]
    push_cast at hs ⊢
    linarith
  have hnotlt : ¬ ((s.fpsHistory ++ [s.fps]).drop 1).length < SimState.fpsHistorySize := by
    rw [hlenh, hsize]
    omega
  have heq : SimState.updateAdaptiveQuality spawn s =
      SimState.applyQualitySettings spawn
        { s with
          fpsHistory := (s.fpsHistory ++ [s.fps]).drop 1
          currentQuality := Quality.low } := by
    have h0 : ¬ (s.adaptiveQuality = false) := by rw [hadapt]; simp
    have hcond1 : ((s.fpsHistory ++ [s.fps]).drop 1).sum /
        ((((s.fpsHistory ++ [s.fps]).drop 1).length : ℕ) : ℝ) < SimState.fpsThresholdLow ∧
        s.currentQuality ≠ Quality.low := ⟨havg, hq⟩
    rw [SimState.updateAdaptiveQuality]
    simp only [if_neg h0, if_pos hc1, if_neg hnotlt, if_pos hcond1, if_pos hq]
  rw [heq]
  exact applyQuality_low_count spawn _ rfl

/-- `applyQualitySettings` never changes the active tier. -/
theorem applyQuality_currentQuality (spawn : ℕ → Fish) (s : SimState) :
    (SimState.applyQualitySettings spawn s).currentQuality = s.currentQuality := by
  rw [SimState.applyQualitySettings]
  by_cases h : s.currentQuality = Quality.high
  · simp only [if_pos h]
  · simp only [if_neg h]

/-- The spawn oracle used by concrete quality-controller runs. -/
noncomputable def spawnDefault : ℕ → Fish := fun _ => unitFish

/-- A state whose full ten-sample history is slow (all `29 < 30`) but whose
current FPS sample — pushed into the window by the next evaluation — is
`100`. -/
noncomputable def stateStale : SimState :=
  { adaptiveQuality := true
    fps := 100
    fpsHistory := [29, 29, 29, 29, 29, 29, 29, 29, 29, 29]
    currentQuality := Quality.high
    highFishMax := 200
    creatures := List.replicate 50 unitFish
    canvasWidth := 800
    dpr := 1 }

/-- Counterexample to claim C9 as stated: the evaluation first records the
current FPS sample (dropping the oldest of the ten stored ones), so a full
history of samples below 30 does not force the `low` tier — here the average
becomes `36.1` and the controller selects `medium`. -/
theorem quality_low_cex :
    stateStale.fpsHistory.length = 10 ∧
    (∀ x ∈ stateStale.fpsHistory, x < 30) ∧
    (SimState.updateAdaptiveQuality spawnDefault stateStale).currentQuality =
      Quality.medium ∧
    Quality.medium ≠ Quality.low := by
  have hfin : (SimState.updateAdaptiveQuality spawnDefault stateStale).currentQuality =
      Quality.medium := by
    have h0 : ¬ (stateStale.adaptiveQuality = false) := by simp [stateStale]
    have hc1 : (stateStale.fpsHistory ++ [stateStale.fps]).length >
        SimState.fpsHistorySize := by
      simp [stateStale, SimState.fpsHistorySize]
    have hnotlt : ¬ ((stateStale.fpsHistory ++ [stateStale.fps]).drop 1).length <
        SimState.fpsHistorySize := by
      simp [stateStale, SimState.fpsHistorySize]
    have havg : ((stateStale.fpsHistory ++ [stateStale.fps]).drop 1).sum /
        ((((stateStale.fpsHistory ++ [stateStale.fps]).drop 1).length : ℕ) : ℝ) =
        361 / 10 := by
      norm_num [stateStale]
    have hcond1 : ¬ (((stateStale.fpsHistory ++ [stateStale.fps]).drop 1).sum /
        ((((stateStale.fpsHistory ++ [stateStale.fps]).drop 1).length : ℕ) : ℝ) <
          SimState.fpsThresholdLow ∧
        stateStale.currentQuality ≠ Quality.low) := by
      rw [havg]
      rintro ⟨h, -⟩
      rw [SimState.fpsThresholdLow] at h
      norm_num at h
    have hcond2 : SimState.fpsThresholdLow ≤
        ((stateStale.fpsHistory ++ [stateStale.fps]).drop 1).sum /
          ((((stateStale.fpsHistory ++ [stateStale.fps]).drop 1).length : ℕ) : ℝ) ∧
        ((stateStale.fpsHistory ++ [stateStale.fps]).drop 1).sum /
          ((((stateStale.fpsHistory ++ [stateStale.fps]).drop 1).length : ℕ) : ℝ) <
          SimState.fpsThresholdMedium ∧
        stateStale.currentQuality ≠ Quality.medium := by
      rw [havg]
      refine ⟨?_, ?_, ?_⟩
      · rw [SimState.fpsThresholdLow]
        norm_num
      · rw [SimState.fpsThresholdMedium]
        norm_num
      · simp [stateStale]
    have hchange : stateStale.currentQuality ≠ Quality.medium := by
      simp [stateStale]
    rw [SimState.updateAdaptiveQuality]
    simp only [if_neg h0, if_pos hc1, if_neg hnotlt, if_neg hcond1, if_pos hcond2,
      if_pos hchange]
    rw [applyQuality_currentQuality]
  refine ⟨by simp [stateStale], ?_, hfin, by simp⟩
  intro x hx
  have h29 : x = 29 := by simpa [stateStale] using hx
  rw [h29]
  norm_num

/-- A state satisfying the amended C9 hypotheses: full slow history, a slow
incoming sample, tier still `high`, 50 fish. -/
noncomputable def stateBusy : SimState :=
  { adaptiveQuality := true
    fps := 20
    fpsHistory := [20, 20, 20, 20, 20, 20, 20, 20, 20, 20]
    currentQuality := Quality.high
    highFishMax := 200
    creatures := List.replicate 50 unitFish
    canvasWidth := 800
    dpr := 1 }

theorem quality_low_spec_witness :
    stateBusy.adaptiveQuality = true ∧
    stateBusy.fpsHistory.length = SimState.fpsHistorySize ∧
    (∀ x ∈ stateBusy.fpsHistory, x < SimState.fpsThresholdLow) ∧
    stateBusy.fps < SimState.fpsThresholdLow ∧
    stateBusy.currentQuality ≠ Quality.low ∧
    ((SimState.updateAdaptiveQuality spawnDefault stateBusy).currentQuality =
        Quality.low ∧
      (((SimState.updateAdaptiveQuality spawnDefault stateBusy).creatures.length : ℝ) ≤
        SimState.lowFishMax)) := by
  have h1 : stateBusy.adaptiveQuality = true := rfl
  have h2 : stateBusy.fpsHistory.length = SimState.fpsHistorySize := by
    simp [stateBusy, SimState.fpsHistorySize]
  have h3 : ∀ x ∈ stateBusy.fpsHistory, x < SimState.fpsThresholdLow := by
    intro x hx
    simp only [stateBusy] at hx
    rw [SimState.fpsThresholdLow]
    have : x = 20 := by
      simpa using hx
    rw [this]
    norm_num
  have h4 : stateBusy.fps < SimState.fpsThresholdLow := by
    rw [SimState.fpsThresholdLow]
    norm_num [stateBusy]
  have h5 : stateBusy.currentQuality ≠ Quality.low := by
    simp [stateBusy]
  exact ⟨h1, h2, h3, h4, h5, quality_low_spec spawnDefault stateBusy h1 h2 h3 h4 h5⟩

end Caza
